import Mathlib

/-!
Verification development for the V3 ethical-metadata auto-fill engine
(`Script/autofill_v3_heuristics.py`).

The engine is a single sequential pass over the rows of a CSV table.  We
embed it shallowly: dataframe cells become an inductive `Cell` (string,
Python int, or Python float modelled as a rational), the per-row state is a
`Row` record of the sixteen recognized columns, and the two pseudo-random
generators (`random.Random(seed)` and `np.random.seed(seed)`) become two
explicit streams of rational draws in `[0,1)` with cursors; seeding twice
with the same seed yields the same streams, so stream equality models
seed equality.  Fallible steps (`float(...)` conversion,
`np.random.choice` with mismatched weight/choice lengths) live in
`Except String`.  Floats are modelled as exact rationals; `round(x,3)` is
modelled as round-half-up to 3 decimals (the discrepancy with Python's
float rounding only touches exact half-thousandths and no claim depends
on it).
-/

attribute [local semireducible] Rat.add Rat.mul Rat.sub Rat.inv

namespace AutofillV3

/-- Whether a character is Python whitespace (the ASCII kinds
`str.strip()` removes). -/
def isPySpace (c : Char) : Bool :=
  c.toNat = 32 ∨ c.toNat = 9 ∨ c.toNat = 10 ∨ c.toNat = 13 ∨
  c.toNat = 11 ∨ c.toNat = 12

/-- Python `s.strip()` on the character list of a string. -/
def stripChars (l : List Char) : List Char :=
  ((l.dropWhile isPySpace).reverse.dropWhile isPySpace).reverse

/-- Python `s.strip()`. -/
def pyStrip (s : String) : String := String.mk (stripChars s.data)

/-- ASCII lowercasing of one character (`str.lower()` on the data the
engine sees). -/
def lowerChar (c : Char) : Char :=
  if 65 ≤ c.toNat ∧ c.toNat ≤ 90 then Char.ofNat (c.toNat + 32) else c

/-- Python `s.lower()`. -/
def pyLower (s : String) : String := String.mk (s.data.map lowerChar)

/-- Python `c in s` for a single character. -/
def pyContains (s : String) (c : Char) : Bool := s.data.contains c

/-- A dataframe cell: a string (as read from CSV or stored via `str(...)`),
a Python int (stored by `df.at[i,c] = 0/1`), or a Python float (stored by
`df.at[i,c] = round(conf, 3)`), modelled as an exact rational. -/
inductive Cell where
  | strC : String → Cell
  | intC : Int → Cell
  | ratC : ℚ → Cell
deriving DecidableEq, Repr

/-- Python `str(cell)`.  For rationals we use the `ℚ` printer; only
blankness and serialization equality of such cells matter to the claims. -/
def Cell.pyStr : Cell → String
  | .strC s => s
  | .intC n => toString n
  | .ratC q => toString q

/-- The engine's blankness test `str(cell).strip() == ""` (equivalently
`not str(cell).strip()`).  Ints and floats never print blank. -/
def Cell.isBlank : Cell → Bool
  | .strC s => (stripChars s.data).isEmpty
  | _ => false

/-- Python `cell == 1` as used in `df.at[i,"prefer_not_to_label"] == 1`:
true for the int 1 and the float 1.0, never for a string. -/
def Cell.eqInt1 : Cell → Bool
  | .intC n => n = 1
  | .ratC q => q = 1
  | .strC _ => false

/-- Python `cell == t` for a string literal `t`, as used in
`df.at[i,"skin_tone_bin"] not in ["", "Unknown"]`. -/
def Cell.eqStr (c : Cell) (t : String) : Bool :=
  match c with
  | .strC s => s = t
  | _ => false

/-- The numeric value of a non-empty digit sequence, or `none`. -/
def digitsVal : List Char → Option Nat
  | [] => none
  | l => l.foldl (fun acc c =>
      acc.bind (fun n =>
        if 48 ≤ c.toNat ∧ c.toNat ≤ 57 then some (n * 10 + (c.toNat - 48))
        else none)) (some 0)

/-- Decimal-number parsing for Python `float(str)` restricted to plain
decimal literals (`digits` or `digits.digits`); anything else fails.  The
engine only ever converts engine-produced confidences or CSV cells. -/
def parseDecimal (t : List Char) : Option ℚ :=
  let a := t.takeWhile (fun c => ¬ c = '.')
  match t.dropWhile (fun c => ¬ c = '.') with
  | [] => (digitsVal a).map (fun n => (n : ℚ))
  | _ :: b =>
    if b.contains '.' then none
    else
      match digitsVal a, digitsVal b with
      | some n, some f => some ((n : ℚ) + (f : ℚ) / (10 ^ b.length))
      | _, _ => none

/-- Python `float(str)` on a stripped literal with an optional sign. -/
def parseFloat (s : String) : Option ℚ :=
  match stripChars s.data with
  | '-' :: rest => (parseDecimal rest).map Neg.neg
  | '+' :: rest => parseDecimal rest
  | l => parseDecimal l

/-- Python `float(cell)`: ints and floats convert exactly, strings are
parsed, failure models the `ValueError` that `float("...")` raises. -/
def Cell.toFloat : Cell → Option ℚ
  | .intC n => some (n : ℚ)
  | .ratC q => some q
  | .strC s => parseFloat s

/-- One table row: the sixteen recognized columns
(`safe_col` defaults any missing one to the blank string). -/
structure Row where
  image_id : Cell
  rel_path : Cell
  race_cat : Cell
  gender_cat : Cell
  age_cat : Cell
  split : Cell
  race_ml : Cell
  skin_tone_bin : Cell
  cultural_markers : Cell
  ambiguous_mixed : Cell
  prefer_not_to_label : Cell
  unknown_uncertain : Cell
  conf_race : Cell
  conf_gender : Cell
  conf_skin : Cell
  annotation_notes : Cell
deriving DecidableEq, Repr

/-- The two seeded generators of the script (`rng = random.Random(seed)`
and `np.random.seed(seed)`), modelled as two streams of draws in `[0,1)`
with cursors.  A fixed seed determines the streams, so two runs with the
same seed run with equal streams. -/
structure RngState where
  py : Nat → ℚ
  pyIdx : Nat
  npr : Nat → ℚ
  npIdx : Nat

/-- `rng.random()`: next draw of the Python generator. -/
def RngState.rand (s : RngState) : ℚ × RngState :=
  (s.py s.pyIdx, { s with pyIdx := s.pyIdx + 1 })

/-- Next draw of the NumPy generator (consumed by `np.random.choice`). -/
def RngState.npRand (s : RngState) : ℚ × RngState :=
  (s.npr s.npIdx, { s with npIdx := s.npIdx + 1 })

/-- `rng.choice(seq)`: one draw mapped to an index below `n`. -/
def RngState.randIndex (s : RngState) (n : Nat) : Nat × RngState :=
  let p := s.rand
  (min (Int.toNat (Int.floor (p.1 * n))) (n - 1), p.2)

/-- `rng.uniform(a, b) = a + (b-a) * rng.random()` applied to a draw `r`. -/
def uniform (a b r : ℚ) : ℚ := a + (b - a) * r

/-- Python `round(x, 3)` modelled as round-half-up to 3 decimals. -/
def round3 (q : ℚ) : ℚ := (Int.floor (q * 1000 + 1/2) : ℚ) / 1000

/-- `FF_CLASSES` from the script. -/
def FF_CLASSES : List String :=
  ["White", "Black", "EastAsian", "SouthAsian", "SoutheastAsian", "MiddleEastern", "Latino"]

/-- `ADJACENT_PAIRS` from the script.  Note that `MiddleEastern` occurs in
two pairs: with `SouthAsian` and with `Latino`. -/
def ADJACENT_PAIRS : List (String × String) :=
  [("MiddleEastern", "SouthAsian"),
   ("EastAsian", "SoutheastAsian"),
   ("Latino", "White"),
   ("Latino", "MiddleEastern"),
   ("SouthAsian", "SoutheastAsian")]

/-- Lexicographic comparison of character lists by code point, the order
Python string comparison uses. -/
def ltChars : List Char → List Char → Bool
  | _, [] => false
  | [], _ :: _ => true
  | c :: cs, d :: ds =>
    if c.toNat < d.toNat then true
    else if d.toNat < c.toNat then false
    else ltChars cs ds

/-- Python `a < b` on strings. -/
def strLtB (a b : String) : Bool := ltChars a.data b.data

/-- `tuple(sorted(p))` for a pair of strings. -/
def sortPair (p : String × String) : String × String :=
  if strLtB p.2 p.1 then (p.2, p.1) else (p.1, p.2)

/-- `choose_multilabel(rng, base_label, ambiguous_rate)`.  One draw is
consumed whenever a candidate pair exists (Python short-circuits
`candidates and rng.random() < ambiguous_rate`); a second draw is consumed
by `rng.choice` when the first is below the rate. -/
def choose_multilabel (rs : RngState) (base : String) (rate : ℚ) :
    String × RngState :=
  if base ∈ FF_CLASSES then
    let candidates :=
      (ADJACENT_PAIRS.filter (fun p => p.1 = base ∨ p.2 = base)).map sortPair
    if candidates.isEmpty then (base, rs)
    else
      let p := rs.rand
      if p.1 < rate then
        let q := p.2.randIndex candidates.length
        let pair := candidates.getD q.1 (("", ""))
        let other := if pair.1 = base then pair.2 else pair.1
        (base ++ ("|") ++ other, q.2)
      else (base, p.2)
  else (base, rs)

/-- A decoded grayscale image: size and pixel values (`0..255`). -/
structure Img where
  w : Nat
  h : Nat
  px : Nat → Nat → ℚ

/-- The filesystem/PIL environment the skin-tone block consults:
whether PIL imported, path absoluteness/existence, and `Image.open`
composed with `.convert("L")` (failure = any decode exception). -/
structure ImgEnv where
  pilOk : Bool
  isAbsolute : String → Bool
  fileExists : String → Bool
  openImg : String → Option Img

/-- The candidate roots tried for a relative image path. -/
def candidateRoots : List String := [".", "data/images", "data"]

/-- `root / img_path`. -/
def joinPath (root rel : String) : String := root ++ ("/") ++ rel

/-- The path-resolution loop: a non-absolute path is replaced by the first
existing candidate `root / path`; otherwise it is kept as written. -/
def resolvePath (env : ImgEnv) (rel : String) : String :=
  if env.isAbsolute rel then rel
  else
    match candidateRoots.find? (fun r => env.fileExists (joinPath r rel)) with
    | some r => joinPath r rel
    | none => rel

/-- Mean pixel value of the `cw × ch` crop at `(x0, y0)` (`arr.mean()`). -/
def cropMean (im : Img) (x0 y0 cw ch : Nat) : ℚ :=
  (Finset.sum (Finset.range cw) (fun i =>
    Finset.sum (Finset.range ch) (fun j => im.px (x0 + i) (y0 + j)))) /
    ((cw : ℚ) * ch)

/-- `brightness_to_bin(img_path, bins)`: `None` when PIL is missing, the
image does not decode, or either dimension is below 10; otherwise the mean
brightness of a central crop (60% of each dimension, at least 8px) is
mapped through `np.clip(floor(bright*bins)+1, 1, bins)`.
`int(w*0.6)` is modelled as exact truncation `w*6/10`. -/
def brightness_to_bin (env : ImgEnv) (p : String) (bins : Nat) : Option Int :=
  if env.pilOk = false then none
  else
    match env.openImg p with
    | none => none
    | some im =>
      if im.w < 10 ∨ im.h < 10 then none
      else
        let cw := max 8 (im.w * 6 / 10)
        let ch := max 8 (im.h * 6 / 10)
        let x0 := (im.w - cw) / 2
        let y0 := (im.h - ch) / 2
        let bright := cropMean im x0 y0 cw ch / 255
        some (min (bins : Int) (max 1 (Int.floor (bright * (bins : ℚ)) + 1)))

/-- Inverse-CDF selection of `np.random.choice(choices, p=ws)` for a draw
`r`: the first choice whose cumulative weight exceeds `r`; the last choice
if the weights are exhausted. -/
def weightedPick (r : ℚ) : List Int → List ℚ → Int
  | [], _ => 0
  | [c], _ => c
  | c :: _ :: _, [] => c
  | c :: c2 :: cs, w :: wtl =>
      if r < w then c else weightedPick (r - w) (c2 :: cs) wtl

/-- Error text of NumPy's size check in `np.random.choice`. -/
def npSizeErr : String := "ValueError: a and p must have same size"

/-- Error text of NumPy's emptiness check in `np.random.choice`. -/
def npEmptyErr : String := "ValueError: a must be non-empty"

/-- Error text of Python `float(...)` on a non-numeric string. -/
def floatErr : String := "ValueError: could not convert string to float"

/-- `np.random.choice(choices, p=np.array(ws)/np.sum(ws))`: raises when
the weight vector and the choice vector differ in length (the crash the
hard-coded 7-entry race tables cause whenever `--skin-bins` is not 7),
otherwise normalizes the weights and samples by inverse CDF with one
NumPy draw. -/
def npChoice (rs : RngState) (choices : List Int) (ws : List ℚ) :
    Except String (Int × RngState) :=
  if choices.length ≠ ws.length then .error npSizeErr
  else if choices.isEmpty then .error npEmptyErr
  else
    let s := ws.sum
    let wsN := ws.map (fun w => w / s)
    let p := rs.npRand
    .ok (weightedPick p.1 choices wsN, p.2)

/-- The hard-coded per-race weight table of the random skin-tone strategy;
races other than `Black`/`White` get a uniform table of length `bins`,
but the two listed tables always have exactly 7 entries. -/
def skinWeights (base : String) (bins : Nat) : List ℚ :=
  if base = "Black" then
    [25/100, 22/100, 18/100, 14/100, 10/100, 7/100, 4/100]
  else if base = "White" then
    [4/100, 7/100, 10/100, 14/100, 18/100, 22/100, 25/100]
  else List.replicate bins (1 / (bins : ℚ))

/-- `list(range(1, bins+1))`. -/
def skinChoices (bins : Nat) : List Int :=
  (List.range bins).map (fun k => Int.ofNat k + 1)

/-- `--skin-tone-method`: `random` (default) or `brightness`. -/
inductive SkinMethod where
  | random
  | brightness
deriving DecidableEq, Repr

/-- The recognized configuration surface.  The seed itself is represented
by the generator streams of `RngState`; `--dry-run` only suppresses the
final write and `--in`/`--out` are paths, so neither enters the per-row
logic. -/
structure Config where
  ambiguousRate : ℚ
  uncertainRate : ℚ
  preferNotRate : ℚ
  hiConf : ℚ × ℚ
  midConf : ℚ × ℚ
  loConf : ℚ × ℚ
  lowconfThreshold : ℚ
  skinToneMethod : SkinMethod
  skinBins : Nat
  markerRate : ℚ
  overwrite : Bool
deriving Repr

/-- The script's default configuration (argparse defaults). -/
def defaultConfig : Config :=
  ⟨15/100, 10/100, 1/100, (80/100, 1), (55/100, 80/100), (30/100, 55/100),
   60/100, SkinMethod.random, 7, 12/100, false⟩

/-- The `race_ml` block: when overwriting or the snapshot cell is blank,
store `choose_multilabel(...)` and use its result as `ml`; otherwise keep
the cell and use `str(row["race_ml"])` as `ml`. -/
def fillRaceMl (cfg : Config) (row cur : Row) (rs : RngState) :
    String × Row × RngState :=
  if cfg.overwrite || row.race_ml.isBlank then
    let p := choose_multilabel rs row.race_cat.pyStr cfg.ambiguousRate
    (p.1, { cur with race_ml := Cell.strC p.1 }, p.2)
  else (row.race_ml.pyStr, cur, rs)

/-- The `ambiguous_mixed` block: `1 if "|" in ml else 0`. -/
def fillAmbiguous (cfg : Config) (row cur : Row) (ml : String) : Row :=
  if cfg.overwrite || row.ambiguous_mixed.isBlank then
    { cur with ambiguous_mixed :=
        Cell.intC (if pyContains ml '|' then 1 else 0) }
  else cur

/-- The `prefer_not_to_label` block: a Bernoulli draw at the
prefer-not rate. -/
def fillPrefer (cfg : Config) (row cur : Row) (rs : RngState) :
    Row × RngState :=
  if cfg.overwrite || row.prefer_not_to_label.isBlank then
    let p := rs.rand
    ({ cur with prefer_not_to_label :=
        Cell.intC (if p.1 < cfg.preferNotRate then 1 else 0) }, p.2)
  else (cur, rs)

/-- The `conf_race` block: low band if the (possibly just-stored)
prefer flag equals 1, mid band if `ml` is multi-label, otherwise one
condition draw (`rng.random() > uncertain_rate` picks the high band) and
one band draw; the result is rounded to 3 decimals. -/
def fillConfRace (cfg : Config) (row cur : Row) (ml : String) (rs : RngState) :
    Row × RngState :=
  if cfg.overwrite || row.conf_race.isBlank then
    if cur.prefer_not_to_label.eqInt1 then
      let p := rs.rand
      ({ cur with conf_race :=
          Cell.ratC (round3 (uniform cfg.loConf.1 cfg.loConf.2 p.1)) }, p.2)
    else if pyContains ml '|' then
      let p := rs.rand
      ({ cur with conf_race :=
          Cell.ratC (round3 (uniform cfg.midConf.1 cfg.midConf.2 p.1)) }, p.2)
    else
      let pc := rs.rand
      let pu := pc.2.rand
      let conf :=
        if pc.1 > cfg.uncertainRate then uniform cfg.hiConf.1 cfg.hiConf.2 pu.1
        else uniform cfg.loConf.1 cfg.loConf.2 pu.1
      ({ cur with conf_race := Cell.ratC (round3 conf) }, pu.2)
  else (cur, rs)

/-- `conf_val = float(df.at[i,"conf_race"]) if str(...).strip()!="" else 0.5`:
the stored cell is converted, raising `ValueError` on a non-numeric
string. -/
def confValOf (c : Cell) : Except String ℚ :=
  if c.isBlank then .ok (1/2)
  else
    match c.toFloat with
    | some v => .ok v
    | none => .error floatErr

/-- The `unknown_uncertain` block:
`1 if (conf_val < threshold or rng.random() < uncertain_rate) else 0`,
with the Python `or` short-circuiting the draw when the confidence is
below the threshold. -/
def fillUnknown (cfg : Config) (row cur : Row) (confVal : ℚ) (rs : RngState) :
    Row × RngState :=
  if cfg.overwrite || row.unknown_uncertain.isBlank then
    if confVal < cfg.lowconfThreshold then
      ({ cur with unknown_uncertain := Cell.intC 1 }, rs)
    else
      let p := rs.rand
      ({ cur with unknown_uncertain :=
          Cell.intC (if p.1 < cfg.uncertainRate then 1 else 0) }, p.2)
  else (cur, rs)

/-- Set formation (`set(markers)`): keep the first occurrence of each
string. -/
def dedupAux (seen : List String) : List String → List String
  | [] => []
  | x :: xs =>
    if seen.contains x then dedupAux seen xs
    else x :: dedupAux (x :: seen) xs

/-- Insertion into a lexicographically sorted list of strings. -/
def insertSorted (x : String) : List String → List String
  | [] => [x]
  | y :: ys => if strLtB x y then x :: y :: ys else y :: insertSorted x ys

/-- `sorted(...)` on a list of strings. -/
def sortStrings (l : List String) : List String := l.foldr insertSorted []

/-- The `cultural_markers` block: headwear draw only for
MiddleEastern/SouthAsian rows, beard draw only for male rows (lowercased,
unstripped gender), an unconditional piercing draw at half rate; the
(deduplicated, sorted) markers are pipe-joined, with `none` for the empty
set. -/
def fillMarkers (cfg : Config) (row cur : Row) (rs : RngState) :
    Row × RngState :=
  if cfg.overwrite || row.cultural_markers.isBlank then
    let base := row.race_cat.pyStr
    let s1 :=
      if base = "MiddleEastern" ∨ base = "SouthAsian" then
        let p := rs.rand
        ((if p.1 < cfg.markerRate then [("religious_headwear")] else []), p.2)
      else ([], rs)
    let g := pyLower row.gender_cat.pyStr
    let s2 :=
      if g = "male" ∨ g = "m" then
        let p := s1.2.rand
        ((if p.1 < cfg.markerRate then [("beard")] else []), p.2)
      else ([], s1.2)
    let p3 := s2.2.rand
    let m3 := if p3.1 < cfg.markerRate / 2 then [("piercing_visible")] else []
    let markers := s1.1 ++ s2.1 ++ m3
    let markers := if markers.isEmpty then [("none")] else markers
    ({ cur with cultural_markers :=
        Cell.strC (String.intercalate ("|")
          (sortStrings (dedupAux [] markers))) },
      p3.2)
  else (cur, rs)

/-- The `skin_tone_bin` block: under the brightness method with PIL
available and a non-blank `rel_path`, try `brightness_to_bin` on the
resolved path; on `None` (and always under the random method) fall back to
`np.random.choice` over `1..bins` with the race-weighted table.  The
stored cell is `str(bin_val)`. -/
def fillSkin (cfg : Config) (env : ImgEnv) (row cur : Row) (rs : RngState) :
    Except String (Row × RngState) :=
  if cfg.overwrite || row.skin_tone_bin.isBlank then
    let bv : Option Int :=
      if cfg.skinToneMethod = SkinMethod.brightness ∧ env.pilOk = true ∧
          (stripChars row.rel_path.pyStr.data).isEmpty = false then
        brightness_to_bin env (resolvePath env row.rel_path.pyStr) cfg.skinBins
      else none
    match bv with
    | some b => .ok ({ cur with skin_tone_bin := Cell.strC (toString b) }, rs)
    | none =>
      match npChoice rs (skinChoices cfg.skinBins)
          (skinWeights row.race_cat.pyStr cfg.skinBins) with
      | .ok pb =>
          .ok ({ cur with skin_tone_bin := Cell.strC (toString pb.1) }, pb.2)
      | .error e => .error e
  else .ok (cur, rs)

/-- The `conf_skin` block: the `[0.6, 0.9]` band is chosen whenever the
method is brightness, PIL is available, and the (just stored or
pre-existing) bin cell is neither `""` nor `"Unknown"` — the code does
not test whether the brightness estimate actually succeeded; otherwise
the `[0.5, 0.8]` band. -/
def fillConfSkin (cfg : Config) (env : ImgEnv) (row cur : Row)
    (rs : RngState) : Row × RngState :=
  if cfg.overwrite || row.conf_skin.isBlank then
    let p := rs.rand
    let v :=
      if cfg.skinToneMethod = SkinMethod.brightness ∧ env.pilOk = true ∧
          ¬ (cur.skin_tone_bin.eqStr ("") = true ∨
             cur.skin_tone_bin.eqStr ("Unknown") = true) then
        uniform (6/10) (9/10) p.1
      else uniform (5/10) (8/10) p.1
    ({ cur with conf_skin := Cell.ratC (round3 v) }, p.2)
  else (cur, rs)

/-- The `conf_gender` block: `[0.8, 1.0]` for a recognized
(stripped, lowercased) gender value, `[0.4, 0.7]` otherwise. -/
def fillConfGender (cfg : Config) (row cur : Row) (rs : RngState) :
    Row × RngState :=
  if cfg.overwrite || row.conf_gender.isBlank then
    let g := pyLower (pyStrip row.gender_cat.pyStr)
    let p := rs.rand
    let v :=
      if g = "male" ∨ g = "m" ∨ g = "female" ∨ g = "f" then
        uniform (8/10) 1 p.1
      else uniform (4/10) (7/10) p.1
    ({ cur with conf_gender := Cell.ratC (round3 v) }, p.2)
  else (cur, rs)

/-- The `annotation_notes` block: machine-readable markers for
multi-label race, the uncertainty flag, and the preference flag, joined
with `"; "`. -/
def fillNotes (cfg : Config) (row cur : Row) (ml : String) : Row :=
  if cfg.overwrite || row.annotation_notes.isBlank then
    let notes :=
      (if pyContains ml '|' then
        [("auto: multi-heritage heuristic")] else []) ++
      (if cur.unknown_uncertain.eqInt1 then
        [("auto: low confidence / uncertain")] else []) ++
      (if cur.prefer_not_to_label.eqInt1 then
        [("auto: prefer-not-to-label set")] else [])
    { cur with annotation_notes := Cell.strC (String.intercalate ("; ") notes) }
  else cur

/-- The first four blocks of the loop body (`race_ml`,
`ambiguous_mixed`, `prefer_not_to_label`, `conf_race`): the row and
generator after them, together with the `ml` value the later blocks
reuse. -/
def rowAfterConf (cfg : Config) (row : Row) (rs : RngState) :
    Row × RngState × String :=
  let a := fillRaceMl cfg row row rs
  let cur2 := fillAmbiguous cfg row a.2.1 a.1
  let b := fillPrefer cfg row cur2 a.2.2
  let c := fillConfRace cfg row b.1 a.1 b.2
  (c.1, c.2, a.1)

/-- Blocks five and six (`unknown_uncertain`, `cultural_markers`),
applied after the confidence blocks, given the converted `conf_val`. -/
def rowBeforeSkin (cfg : Config) (row : Row) (rs : RngState) (confVal : ℚ) :
    Row × RngState :=
  let s := rowAfterConf cfg row rs
  let d := fillUnknown cfg row s.1 confVal s.2.1
  fillMarkers cfg row d.1 d.2

/-- The last three blocks (`conf_skin`, `conf_gender`,
`annotation_notes`) after a successful skin-tone block. -/
def rowFinal (cfg : Config) (env : ImgEnv) (row : Row) (ml : String)
    (f : Row × RngState) : Row × RngState :=
  let g := fillConfSkin cfg env row f.1 f.2
  let h := fillConfGender cfg row g.1 g.2
  (fillNotes cfg row h.1 ml, h.2)

/-- One iteration of the per-row loop, in the exact block order of the
source; `row` is the `iterrows` snapshot the guards consult, the evolving
row mirrors `df.at[i, ...]`.  The two fallible steps are the
`float(df.at[i,"conf_race"])` conversion and `np.random.choice`. -/
def processRow (cfg : Config) (env : ImgEnv) (row : Row) (rs : RngState) :
    Except String (Row × RngState) :=
  let s := rowAfterConf cfg row rs
  match confValOf s.1.conf_race with
  | .error e => .error e
  | .ok confVal =>
    let e := rowBeforeSkin cfg row rs confVal
    match fillSkin cfg env row e.1 e.2 with
    | .error msg => .error msg
    | .ok f => .ok (rowFinal cfg env row s.2.2 f)

/-- The full sequential pass: rows processed in table order, both
generators threaded through. -/
def processTable (cfg : Config) (env : ImgEnv) (rows : List Row)
    (rs : RngState) : Except String (List Row × RngState) :=
  match rows with
  | [] => .ok ([], rs)
  | r :: rest =>
    match processRow cfg env r rs with
    | .error e => .error e
    | .ok p =>
      match processTable cfg env rest p.2 with
      | .error e => .error e
      | .ok q => .ok (p.1 :: q.1, q.2)

/-- The CSV header of the recognized columns. -/
def csvHeader : String :=
  "image_id,rel_path,race_cat,gender_cat,age_cat,split,race_ml,skin_tone_bin,cultural_markers,ambiguous_mixed,prefer_not_to_label,unknown_uncertain,conf_race,conf_gender,conf_skin,annotation_notes"

/-- One serialized CSV record. -/
def serializeRow (r : Row) : String :=
  String.intercalate (",")
    [r.image_id.pyStr, r.rel_path.pyStr, r.race_cat.pyStr, r.gender_cat.pyStr,
     r.age_cat.pyStr, r.split.pyStr, r.race_ml.pyStr, r.skin_tone_bin.pyStr,
     r.cultural_markers.pyStr, r.ambiguous_mixed.pyStr,
     r.prefer_not_to_label.pyStr, r.unknown_uncertain.pyStr,
     r.conf_race.pyStr, r.conf_gender.pyStr, r.conf_skin.pyStr,
     r.annotation_notes.pyStr]

/-- The bytes `df.to_csv` writes, as a function of the table alone. -/
def serializeTable (rows : List Row) : String :=
  String.intercalate ("\n") (csvHeader :: rows.map serializeRow)

/-- The names bound at module level when the script runs.  The file
defines `main` twice; the second definition (the entry point calling
`generate_v3_metadata`) replaces the first (the 190-line engine body), so
the engine body is bound as `main` is rebound and the name `main_logic`
that `generate_v3_metadata` calls is never defined. -/
def moduleNames : List String :=
  ["parse_args", "urange", "safe_col", "choose_multilabel",
   "brightness_to_bin", "main", "generate_v3_metadata"]

/-- Whether a global name resolves when called at run time. -/
def resolvesName (n : String) : Bool := n ∈ moduleNames

/-- Process exit of one invocation. -/
inductive ExitCode where
  | success
  | failure
deriving DecidableEq, Repr

/-- `generate_v3_metadata(args)`: raises `FileNotFoundError` when the
input is missing, then calls `main_logic(args)` — a name that does not
resolve, so a `NameError` is raised on every invocation that reaches it. -/
def generate_v3_metadata (inputExists : Bool) : Except String Unit :=
  if inputExists = false then .error ("FileNotFoundError: input file not found")
  else if resolvesName ("main_logic") then .ok ()
  else .error ("NameError: name main_logic is not defined")

/-- The executed `main` (the second definition in the file): any exception
from `generate_v3_metadata` is caught, printed, and turned into
`sys.exit(1)`. -/
def mainEntry (inputExists : Bool) : ExitCode :=
  match generate_v3_metadata inputExists with
  | .ok _ => ExitCode.success
  | .error _ => ExitCode.failure

/-- A generator stream is valid when every draw lies in `[0, 1)`,
as `random()` draws do. -/
def validStream (f : Nat → ℚ) : Prop := ∀ k, 0 ≤ f k ∧ f k < 1

/-- All ten derived columns of a row are non-blank by the engine's own
blankness test. -/
def Row.derivedFilled (r : Row) : Prop :=
  r.race_ml.isBlank = false ∧ r.skin_tone_bin.isBlank = false ∧
  r.cultural_markers.isBlank = false ∧ r.ambiguous_mixed.isBlank = false ∧
  r.prefer_not_to_label.isBlank = false ∧ r.unknown_uncertain.isBlank = false ∧
  r.conf_race.isBlank = false ∧ r.conf_gender.isBlank = false ∧
  r.conf_skin.isBlank = false ∧ r.annotation_notes.isBlank = false

instance (r : Row) : Decidable r.derivedFilled := by
  unfold Row.derivedFilled; infer_instance

/-- The `conf_val` the uncertainty block reads off a processed row:
`0.5` for a blank cell, otherwise the float conversion of the cell. -/
def confValRow (r : Row) : ℚ :=
  if r.conf_race.isBlank then 1/2 else (r.conf_race.toFloat).getD 0

/-- All three configured confidence bands lie within `[0, 1]`
(the argparse defaults do). -/
def rangesIn01 (cfg : Config) : Prop :=
  0 ≤ cfg.loConf.1 ∧ cfg.loConf.1 ≤ 1 ∧ 0 ≤ cfg.loConf.2 ∧ cfg.loConf.2 ≤ 1 ∧
  0 ≤ cfg.midConf.1 ∧ cfg.midConf.1 ≤ 1 ∧ 0 ≤ cfg.midConf.2 ∧ cfg.midConf.2 ≤ 1 ∧
  0 ≤ cfg.hiConf.1 ∧ cfg.hiConf.1 ≤ 1 ∧ 0 ≤ cfg.hiConf.2 ∧ cfg.hiConf.2 ≤ 1

instance (cfg : Config) : Decidable (rangesIn01 cfg) := by
  unfold rangesIn01; infer_instance

/-- The constant stream of draws `1/2`. -/
def constHalf : Nat → ℚ := fun _ => 1/2

/-- The constant stream of draws `0`. -/
def constZero : Nat → ℚ := fun _ => 0

/-- Both generators seeded, cursors at zero, draws all `1/2`. -/
def rs0 : RngState := ⟨constHalf, 0, constHalf, 0⟩

/-- Both generators seeded, cursors at zero, draws all `0`. -/
def rsZ : RngState := ⟨constZero, 0, constZero, 0⟩

/-- A scaffold row: every recognized column present and blank. -/
def blankRow : Row :=
  ⟨Cell.strC (""), Cell.strC (""), Cell.strC (""), Cell.strC (""),
   Cell.strC (""), Cell.strC (""), Cell.strC (""), Cell.strC (""),
   Cell.strC (""), Cell.strC (""), Cell.strC (""), Cell.strC (""),
   Cell.strC (""), Cell.strC (""), Cell.strC (""), Cell.strC ("")⟩

/-- An environment without PIL and without any resolvable image. -/
def envNone : ImgEnv := ⟨false, fun _ => false, fun _ => false, fun _ => none⟩

/-- PIL available, but no path is absolute, exists, or decodes. -/
def envPilFail : ImgEnv := ⟨true, fun _ => false, fun _ => false, fun _ => none⟩

/-- A blank row with base race `EastAsian`. -/
def rowEA : Row := { blankRow with race_cat := Cell.strC ("EastAsian") }

/-- A blank row with base race `Black`. -/
def rowBlack : Row := { blankRow with race_cat := Cell.strC ("Black") }

/-- A blank row with base race `MiddleEastern`. -/
def rowME : Row := { blankRow with race_cat := Cell.strC ("MiddleEastern") }

/-- The default configuration with `--skin-bins 5`. -/
def cfgBins5 : Config := { defaultConfig with skinBins := 5 }

/-- The default configuration with `--ambiguous-rate 1.0`. -/
def cfgAmb1 : Config := { defaultConfig with ambiguousRate := 1 }

/-- The default configuration with `--skin-tone-method brightness`. -/
def cfgBright : Config :=
  { defaultConfig with skinToneMethod := SkinMethod.brightness }

/-- Brightness method together with `--skin-bins 5`. -/
def cfgB5 : Config := { cfgBright with skinBins := 5 }

/-- The default configuration with `--hi-conf-range "2,3"`. -/
def cfgHi23 : Config := { defaultConfig with hiConf := (2, 3) }

/-- A blank `EastAsian` row carrying a relative image path. -/
def rowPath : Row :=
  { rowEA with rel_path := Cell.strC ("img.jpg") }

/-- A blank `Black` row carrying a relative image path. -/
def rowBlackP : Row :=
  { rowBlack with rel_path := Cell.strC ("x.jpg") }

/-- The stream whose seventh draw (the `conf_skin` draw of the first row
in the C8 scenario) is `0.9` and whose other draws are `1/2`. -/
def streamC8 : Nat → ℚ := fun n => if n = 6 then 9/10 else 1/2

/-- Generator state built from `streamC8` and a constant NumPy stream. -/
def rsC8 : RngState := ⟨streamC8, 0, constHalf, 0⟩

/-- A row whose ten derived columns are all non-blank, with numeric
confidence cells. -/
def rowFilled : Row :=
  ⟨Cell.strC ("1"), Cell.strC ("a.jpg"), Cell.strC ("White"),
   Cell.strC ("male"), Cell.strC ("adult"), Cell.strC ("train"),
   Cell.strC ("White"), Cell.strC ("4"), Cell.strC ("none"),
   Cell.strC ("0"), Cell.strC ("0"), Cell.strC ("0"),
   Cell.strC ("0.7"), Cell.strC ("0.9"), Cell.strC ("0.7"),
   Cell.strC ("ok")⟩

/-- `rowFilled` with the non-numeric confidence cell `"x"`: every derived
column is non-blank, yet `float(...)` on `conf_race` raises. -/
def rowBadConf : Row := { rowFilled with conf_race := Cell.strC ("x") }

/-- A fully filled row whose `ambiguous_mixed` is blank while `race_ml`
is multi-label. -/
def rowC5W : Row :=
  { rowFilled with race_ml := Cell.strC ("MiddleEastern|SouthAsian"),
                   ambiguous_mixed := Cell.strC ("") }

/-- A fully filled row with a multi-label `race_ml` but a pre-filled
`ambiguous_mixed` of `"0"`. -/
def rowC5C : Row :=
  { rowFilled with race_ml := Cell.strC ("MiddleEastern|SouthAsian") }

/-- A fully filled row with `conf_race "0.2"` (below the default
threshold) and a blank `unknown_uncertain`. -/
def rowC9W : Row :=
  { rowFilled with conf_race := Cell.strC ("0.2"),
                   unknown_uncertain := Cell.strC ("") }

/-- The row the engine produces from `rowC5W` (only the blank
`ambiguous_mixed` is recomputed, consistently with the stored multi-label
`race_ml`; no draw is consumed). -/
def rowC5WOut : Row := { rowC5W with ambiguous_mixed := Cell.intC 1 }

/-- The row the engine produces from `rowC9W` (only the blank
`unknown_uncertain` is recomputed; `conf_race 0.2` is below the default
threshold, so the flag is 1 and no draw is consumed). -/
def rowC9WOut : Row := { rowC9W with unknown_uncertain := Cell.intC 1 }

/-- The output row of one default-configuration pass over `rowEA` with
all draws `1/2`. -/
def rowEAOut : Row :=
  { rowEA with
    race_ml := Cell.strC ("EastAsian"),
    skin_tone_bin := Cell.strC ("4"),
    cultural_markers := Cell.strC ("none"),
    ambiguous_mixed := Cell.intC 0,
    prefer_not_to_label := Cell.intC 0,
    unknown_uncertain := Cell.intC 0,
    conf_race := Cell.ratC (9/10),
    conf_gender := Cell.ratC (11/20),
    conf_skin := Cell.ratC (13/20),
    annotation_notes := Cell.strC ("") }

/-- The output row of one pass over `rowME` with ambiguous-rate 1 and all
draws `0`. -/
def rowMEOut : Row :=
  { rowME with
    race_ml := Cell.strC ("MiddleEastern|SouthAsian"),
    skin_tone_bin := Cell.strC ("1"),
    cultural_markers := Cell.strC ("piercing_visible|religious_headwear"),
    ambiguous_mixed := Cell.intC 1,
    prefer_not_to_label := Cell.intC 1,
    unknown_uncertain := Cell.intC 1,
    conf_race := Cell.ratC (3/10),
    conf_gender := Cell.ratC (2/5),
    conf_skin := Cell.ratC (1/2),
    annotation_notes := Cell.strC
      ("auto: multi-heritage heuristic; auto: low confidence / uncertain; auto: prefer-not-to-label set") }

/-! ### Block-level lemmas -/

theorem fillRaceMl_race_ml_pyStr (cfg : Config) (row : Row) (rs : RngState) :
    ((fillRaceMl cfg row row rs).2.1).race_ml.pyStr =
      (fillRaceMl cfg row row rs).1 := by
  unfold fillRaceMl
  dsimp only
  split_ifs <;> rfl

theorem fillRaceMl_py (cfg : Config) (row cur : Row) (rs : RngState) :
    (fillRaceMl cfg row cur rs).2.2.py = rs.py := by
  unfold fillRaceMl choose_multilabel RngState.randIndex RngState.rand
  dsimp only
  split_ifs <;> rfl

theorem fillAmbiguous_race_ml (cfg : Config) (row cur : Row) (ml : String) :
    (fillAmbiguous cfg row cur ml).race_ml = cur.race_ml := by
  unfold fillAmbiguous
  split_ifs <;> rfl

theorem fillAmbiguous_conf (cfg : Config) (row cur : Row) (ml : String) :
    (fillAmbiguous cfg row cur ml).conf_race = cur.conf_race ∧
    (fillAmbiguous cfg row cur ml).unknown_uncertain = cur.unknown_uncertain ∧
    (fillAmbiguous cfg row cur ml).conf_skin = cur.conf_skin ∧
    (fillAmbiguous cfg row cur ml).conf_gender = cur.conf_gender := by
  unfold fillAmbiguous
  split_ifs <;> exact ⟨rfl, rfl, rfl, rfl⟩

theorem fillAmbiguous_eq (cfg : Config) (row cur : Row) (ml : String)
    (h : cfg.overwrite = true ∨ row.ambiguous_mixed.isBlank = true) :
    (fillAmbiguous cfg row cur ml).ambiguous_mixed =
      Cell.intC (if pyContains ml '|' then 1 else 0) := by
  have hg : (cfg.overwrite || row.ambiguous_mixed.isBlank) = true := by
    rcases h with h | h <;> simp [h]
  unfold fillAmbiguous
  rw [if_pos hg]

theorem fillPrefer_pres (cfg : Config) (row cur : Row) (rs : RngState) :
    ((fillPrefer cfg row cur rs).1).race_ml = cur.race_ml ∧
    ((fillPrefer cfg row cur rs).1).ambiguous_mixed = cur.ambiguous_mixed ∧
    ((fillPrefer cfg row cur rs).1).conf_race = cur.conf_race ∧
    ((fillPrefer cfg row cur rs).1).unknown_uncertain = cur.unknown_uncertain ∧
    ((fillPrefer cfg row cur rs).1).conf_skin = cur.conf_skin ∧
    ((fillPrefer cfg row cur rs).1).conf_gender = cur.conf_gender := by
  unfold fillPrefer
  split_ifs <;> exact ⟨rfl, rfl, rfl, rfl, rfl, rfl⟩

theorem fillPrefer_py (cfg : Config) (row cur : Row) (rs : RngState) :
    (fillPrefer cfg row cur rs).2.py = rs.py := by
  unfold fillPrefer RngState.rand
  dsimp only
  split_ifs <;> rfl

theorem fillConfRace_pres (cfg : Config) (row cur : Row) (ml : String)
    (rs : RngState) :
    ((fillConfRace cfg row cur ml rs).1).race_ml = cur.race_ml ∧
    ((fillConfRace cfg row cur ml rs).1).ambiguous_mixed = cur.ambiguous_mixed ∧
    ((fillConfRace cfg row cur ml rs).1).unknown_uncertain =
      cur.unknown_uncertain ∧
    ((fillConfRace cfg row cur ml rs).1).conf_skin = cur.conf_skin ∧
    ((fillConfRace cfg row cur ml rs).1).conf_gender = cur.conf_gender := by
  unfold fillConfRace
  split_ifs <;> exact ⟨rfl, rfl, rfl, rfl, rfl⟩

theorem fillConfRace_py (cfg : Config) (row cur : Row) (ml : String)
    (rs : RngState) :
    (fillConfRace cfg row cur ml rs).2.py = rs.py := by
  unfold fillConfRace RngState.rand
  dsimp only
  split_ifs <;> rfl

theorem fillConfRace_value (cfg : Config) (row cur : Row) (ml : String)
    (rs : RngState)
    (h : cfg.overwrite = true ∨ row.conf_race.isBlank = true) :
    ∃ a b k, ((a, b) = cfg.loConf ∨ (a, b) = cfg.midConf ∨
        (a, b) = cfg.hiConf) ∧
      ((fillConfRace cfg row cur ml rs).1).conf_race =
        Cell.ratC (round3 (uniform a b (rs.py k))) := by
  have hg : (cfg.overwrite || row.conf_race.isBlank) = true := by
    rcases h with h | h <;> simp [h]
  unfold fillConfRace
  rw [if_pos hg]
  dsimp only [RngState.rand]
  split_ifs with h1 h2 h3
  · exact ⟨cfg.loConf.1, cfg.loConf.2, rs.pyIdx, Or.inl rfl, rfl⟩
  · exact ⟨cfg.midConf.1, cfg.midConf.2, rs.pyIdx, Or.inr (Or.inl rfl), rfl⟩
  · exact ⟨cfg.hiConf.1, cfg.hiConf.2, rs.pyIdx + 1,
      Or.inr (Or.inr rfl), rfl⟩
  · exact ⟨cfg.loConf.1, cfg.loConf.2, rs.pyIdx + 1, Or.inl rfl, rfl⟩

theorem confValOf_ok (c : Cell) (v : ℚ) (h : confValOf c = .ok v) :
    (if c.isBlank then (1 : ℚ)/2 else (c.toFloat).getD 0) = v := by
  unfold confValOf at h
  split_ifs at h with hb
  · simp only [Except.ok.injEq] at h
    simp [hb, h]
  · simp only [hb, if_false]
    cases hf : c.toFloat with
    | none => rw [hf] at h; exact absurd h (by simp)
    | some w =>
      rw [hf] at h
      simp only [Except.ok.injEq] at h
      simp [h]

theorem fillUnknown_pres (cfg : Config) (row cur : Row) (confVal : ℚ)
    (rs : RngState) :
    ((fillUnknown cfg row cur confVal rs).1).race_ml = cur.race_ml ∧
    ((fillUnknown cfg row cur confVal rs).1).ambiguous_mixed =
      cur.ambiguous_mixed ∧
    ((fillUnknown cfg row cur confVal rs).1).conf_race = cur.conf_race ∧
    ((fillUnknown cfg row cur confVal rs).1).conf_skin = cur.conf_skin ∧
    ((fillUnknown cfg row cur confVal rs).1).conf_gender = cur.conf_gender := by
  unfold fillUnknown
  split_ifs <;> exact ⟨rfl, rfl, rfl, rfl, rfl⟩

theorem fillUnknown_py (cfg : Config) (row cur : Row) (confVal : ℚ)
    (rs : RngState) :
    (fillUnknown cfg row cur confVal rs).2.py = rs.py := by
  unfold fillUnknown RngState.rand
  dsimp only
  split_ifs <;> rfl

theorem fillUnknown_value (cfg : Config) (row cur : Row) (confVal : ℚ)
    (rs : RngState)
    (h : cfg.overwrite = true ∨ row.unknown_uncertain.isBlank = true) :
    ((fillUnknown cfg row cur confVal rs).1).unknown_uncertain =
      Cell.intC (if confVal < cfg.lowconfThreshold ∨
        rs.py rs.pyIdx < cfg.uncertainRate then 1 else 0) := by
  have hg : (cfg.overwrite || row.unknown_uncertain.isBlank) = true := by
    rcases h with h | h <;> simp [h]
  unfold fillUnknown
  rw [if_pos hg]
  dsimp only [RngState.rand]
  by_cases h1 : confVal < cfg.lowconfThreshold
  · rw [if_pos h1, if_pos (Or.inl h1)]
  · rw [if_neg h1]
    by_cases h2 : rs.py rs.pyIdx < cfg.uncertainRate
    · rw [if_pos h2, if_pos (Or.inr h2)]
    · rw [if_neg h2, if_neg (by tauto)]

theorem fillMarkers_pres (cfg : Config) (row cur : Row) (rs : RngState) :
    ((fillMarkers cfg row cur rs).1).race_ml = cur.race_ml ∧
    ((fillMarkers cfg row cur rs).1).ambiguous_mixed = cur.ambiguous_mixed ∧
    ((fillMarkers cfg row cur rs).1).conf_race = cur.conf_race ∧
    ((fillMarkers cfg row cur rs).1).unknown_uncertain =
      cur.unknown_uncertain ∧
    ((fillMarkers cfg row cur rs).1).conf_skin = cur.conf_skin ∧
    ((fillMarkers cfg row cur rs).1).conf_gender = cur.conf_gender := by
  unfold fillMarkers
  split_ifs <;> exact ⟨rfl, rfl, rfl, rfl, rfl, rfl⟩

theorem fillMarkers_py (cfg : Config) (row cur : Row) (rs : RngState) :
    (fillMarkers cfg row cur rs).2.py = rs.py := by
  unfold fillMarkers RngState.rand
  dsimp only
  split_ifs <;> rfl

theorem npChoice_ok_py (rs : RngState) (choices : List Int) (ws : List ℚ)
    (pb : Int × RngState) (h : npChoice rs choices ws = .ok pb) :
    pb.2.py = rs.py := by
  unfold npChoice RngState.npRand at h
  split_ifs at h
  dsimp only at h
  simp only [Except.ok.injEq] at h
  rw [← h]

theorem fillSkin_pres (cfg : Config) (env : ImgEnv) (row cur : Row)
    (rs : RngState) (pr : Row × RngState)
    (h : fillSkin cfg env row cur rs = .ok pr) :
    pr.1.race_ml = cur.race_ml ∧
    pr.1.ambiguous_mixed = cur.ambiguous_mixed ∧
    pr.1.conf_race = cur.conf_race ∧
    pr.1.unknown_uncertain = cur.unknown_uncertain ∧
    pr.1.conf_skin = cur.conf_skin ∧
    pr.1.conf_gender = cur.conf_gender ∧
    pr.2.py = rs.py := by
  unfold fillSkin at h
  split_ifs at h with hg hc
  · cases hbv : brightness_to_bin env (resolvePath env row.rel_path.pyStr)
        cfg.skinBins with
    | some b =>
      rw [hbv] at h
      dsimp only at h
      simp only [Except.ok.injEq] at h
      subst h
      exact ⟨rfl, rfl, rfl, rfl, rfl, rfl, rfl⟩
    | none =>
      rw [hbv] at h
      dsimp only at h
      cases hnp : npChoice rs (skinChoices cfg.skinBins)
          (skinWeights row.race_cat.pyStr cfg.skinBins) with
      | ok pb =>
        rw [hnp] at h
        dsimp only at h
        simp only [Except.ok.injEq] at h
        subst h
        refine ⟨rfl, rfl, rfl, rfl, rfl, rfl, ?_⟩
        exact npChoice_ok_py rs _ _ pb hnp
      | error e =>
        rw [hnp] at h
        exact absurd h (by simp)
  · dsimp only at h
    cases hnp : npChoice rs (skinChoices cfg.skinBins)
        (skinWeights row.race_cat.pyStr cfg.skinBins) with
    | ok pb =>
      rw [hnp] at h
      dsimp only at h
      simp only [Except.ok.injEq] at h
      subst h
      refine ⟨rfl, rfl, rfl, rfl, rfl, rfl, ?_⟩
      exact npChoice_ok_py rs _ _ pb hnp
    | error e =>
      rw [hnp] at h
      exact absurd h (by simp)
  · simp only [Except.ok.injEq] at h
    subst h
    exact ⟨rfl, rfl, rfl, rfl, rfl, rfl, rfl⟩

theorem fillConfSkin_pres (cfg : Config) (env : ImgEnv) (row cur : Row)
    (rs : RngState) :
    ((fillConfSkin cfg env row cur rs).1).race_ml = cur.race_ml ∧
    ((fillConfSkin cfg env row cur rs).1).ambiguous_mixed =
      cur.ambiguous_mixed ∧
    ((fillConfSkin cfg env row cur rs).1).conf_race = cur.conf_race ∧
    ((fillConfSkin cfg env row cur rs).1).unknown_uncertain =
      cur.unknown_uncertain ∧
    ((fillConfSkin cfg env row cur rs).1).conf_gender = cur.conf_gender := by
  unfold fillConfSkin
  split_ifs <;> exact ⟨rfl, rfl, rfl, rfl, rfl⟩

theorem fillConfSkin_py (cfg : Config) (env : ImgEnv) (row cur : Row)
    (rs : RngState) :
    (fillConfSkin cfg env row cur rs).2.py = rs.py := by
  unfold fillConfSkin RngState.rand
  dsimp only
  split_ifs <;> rfl

theorem fillConfSkin_value (cfg : Config) (env : ImgEnv) (row cur : Row)
    (rs : RngState)
    (h : cfg.overwrite = true ∨ row.conf_skin.isBlank = true) :
    ∃ a b, ((a, b) = ((6 : ℚ)/10, (9 : ℚ)/10) ∨
        (a, b) = ((5 : ℚ)/10, (8 : ℚ)/10)) ∧
      ((fillConfSkin cfg env row cur rs).1).conf_skin =
        Cell.ratC (round3 (uniform a b (rs.py rs.pyIdx))) := by
  have hg : (cfg.overwrite || row.conf_skin.isBlank) = true := by
    rcases h with h | h <;> simp [h]
  unfold fillConfSkin
  rw [if_pos hg]
  dsimp only [RngState.rand]
  split_ifs with h1
  · exact ⟨6/10, 9/10, Or.inl rfl, rfl⟩
  · exact ⟨5/10, 8/10, Or.inr rfl, rfl⟩

theorem fillConfGender_pres (cfg : Config) (row cur : Row) (rs : RngState) :
    ((fillConfGender cfg row cur rs).1).race_ml = cur.race_ml ∧
    ((fillConfGender cfg row cur rs).1).ambiguous_mixed =
      cur.ambiguous_mixed ∧
    ((fillConfGender cfg row cur rs).1).conf_race = cur.conf_race ∧
    ((fillConfGender cfg row cur rs).1).unknown_uncertain =
      cur.unknown_uncertain ∧
    ((fillConfGender cfg row cur rs).1).conf_skin = cur.conf_skin := by
  unfold fillConfGender
  split_ifs <;> exact ⟨rfl, rfl, rfl, rfl, rfl⟩

theorem fillConfGender_py (cfg : Config) (row cur : Row) (rs : RngState) :
    (fillConfGender cfg row cur rs).2.py = rs.py := by
  unfold fillConfGender RngState.rand
  dsimp only
  split_ifs <;> rfl

theorem fillConfGender_value (cfg : Config) (row cur : Row) (rs : RngState)
    (h : cfg.overwrite = true ∨ row.conf_gender.isBlank = true) :
    ∃ a b, ((a, b) = ((8 : ℚ)/10, (1 : ℚ)) ∨
        (a, b) = ((4 : ℚ)/10, (7 : ℚ)/10)) ∧
      ((fillConfGender cfg row cur rs).1).conf_gender =
        Cell.ratC (round3 (uniform a b (rs.py rs.pyIdx))) := by
  have hg : (cfg.overwrite || row.conf_gender.isBlank) = true := by
    rcases h with h | h <;> simp [h]
  unfold fillConfGender
  rw [if_pos hg]
  dsimp only [RngState.rand]
  split_ifs with h1
  · exact ⟨8/10, 1, Or.inl rfl, rfl⟩
  · exact ⟨4/10, 7/10, Or.inr rfl, rfl⟩

theorem fillNotes_pres (cfg : Config) (row cur : Row) (ml : String) :
    (fillNotes cfg row cur ml).race_ml = cur.race_ml ∧
    (fillNotes cfg row cur ml).ambiguous_mixed = cur.ambiguous_mixed ∧
    (fillNotes cfg row cur ml).conf_race = cur.conf_race ∧
    (fillNotes cfg row cur ml).unknown_uncertain = cur.unknown_uncertain ∧
    (fillNotes cfg row cur ml).conf_skin = cur.conf_skin ∧
    (fillNotes cfg row cur ml).conf_gender = cur.conf_gender := by
  unfold fillNotes
  split_ifs <;> exact ⟨rfl, rfl, rfl, rfl, rfl, rfl⟩

end AutofillV3

namespace AutofillV3

/-! ### Composition lemmas over the staged loop body -/

theorem processRow_ok_elim (cfg : Config) (env : ImgEnv) (row : Row)
    (rs : RngState) (pr : Row × RngState)
    (hok : processRow cfg env row rs = .ok pr) :
    ∃ cv f, confValOf (rowAfterConf cfg row rs).1.conf_race = .ok cv ∧
      fillSkin cfg env row (rowBeforeSkin cfg row rs cv).1
        (rowBeforeSkin cfg row rs cv).2 = .ok f ∧
      pr = rowFinal cfg env row (rowAfterConf cfg row rs).2.2 f := by
  unfold processRow at hok
  dsimp only at hok
  cases hcv : confValOf (rowAfterConf cfg row rs).1.conf_race with
  | error e =>
    rw [hcv] at hok
    exact absurd hok (by simp)
  | ok cv =>
    rw [hcv] at hok
    dsimp only at hok
    cases hsk : fillSkin cfg env row (rowBeforeSkin cfg row rs cv).1
        (rowBeforeSkin cfg row rs cv).2 with
    | error msg =>
      rw [hsk] at hok
      exact absurd hok (by simp)
    | ok f =>
      rw [hsk] at hok
      dsimp only at hok
      simp only [Except.ok.injEq] at hok
      exact ⟨cv, f, rfl, hsk, hok.symm⟩

theorem rowAfterConf_ml (cfg : Config) (row : Row) (rs : RngState) :
    (rowAfterConf cfg row rs).2.2 = (fillRaceMl cfg row row rs).1 := rfl

theorem rowAfterConf_race_ml (cfg : Config) (row : Row) (rs : RngState) :
    (rowAfterConf cfg row rs).1.race_ml =
      (fillRaceMl cfg row row rs).2.1.race_ml := by
  unfold rowAfterConf
  dsimp only
  exact ((fillConfRace_pres _ _ _ _ _).1).trans
    (((fillPrefer_pres _ _ _ _).1).trans (fillAmbiguous_race_ml _ _ _ _))

theorem rowAfterConf_ambiguous (cfg : Config) (row : Row) (rs : RngState)
    (h : cfg.overwrite = true ∨ row.ambiguous_mixed.isBlank = true) :
    (rowAfterConf cfg row rs).1.ambiguous_mixed =
      Cell.intC (if pyContains (fillRaceMl cfg row row rs).1 '|'
        then 1 else 0) := by
  unfold rowAfterConf
  dsimp only
  exact ((fillConfRace_pres _ _ _ _ _).2.1).trans
    (((fillPrefer_pres _ _ _ _).2.1).trans (fillAmbiguous_eq _ _ _ _ h))

theorem rowAfterConf_py (cfg : Config) (row : Row) (rs : RngState) :
    (rowAfterConf cfg row rs).2.1.py = rs.py := by
  unfold rowAfterConf
  dsimp only
  rw [fillConfRace_py, fillPrefer_py, fillRaceMl_py]

theorem rowAfterConf_conf_race (cfg : Config) (row : Row) (rs : RngState)
    (h : cfg.overwrite = true ∨ row.conf_race.isBlank = true) :
    ∃ a b k, ((a, b) = cfg.loConf ∨ (a, b) = cfg.midConf ∨
        (a, b) = cfg.hiConf) ∧
      (rowAfterConf cfg row rs).1.conf_race =
        Cell.ratC (round3 (uniform a b (rs.py k))) := by
  unfold rowAfterConf
  dsimp only
  obtain ⟨a, b, k, hm, hv⟩ := fillConfRace_value cfg row
    (fillPrefer cfg row
      (fillAmbiguous cfg row (fillRaceMl cfg row row rs).2.1
        (fillRaceMl cfg row row rs).1) (fillRaceMl cfg row row rs).2.2).1
    (fillRaceMl cfg row row rs).1
    (fillPrefer cfg row
      (fillAmbiguous cfg row (fillRaceMl cfg row row rs).2.1
        (fillRaceMl cfg row row rs).1) (fillRaceMl cfg row row rs).2.2).2 h
  rw [fillPrefer_py, fillRaceMl_py] at hv
  exact ⟨a, b, k, hm, hv⟩

theorem rowBeforeSkin_pres (cfg : Config) (row : Row) (rs : RngState)
    (cv : ℚ) :
    (rowBeforeSkin cfg row rs cv).1.race_ml =
      (rowAfterConf cfg row rs).1.race_ml ∧
    (rowBeforeSkin cfg row rs cv).1.ambiguous_mixed =
      (rowAfterConf cfg row rs).1.ambiguous_mixed ∧
    (rowBeforeSkin cfg row rs cv).1.conf_race =
      (rowAfterConf cfg row rs).1.conf_race := by
  unfold rowBeforeSkin
  dsimp only
  refine ⟨?_, ?_, ?_⟩
  · exact ((fillMarkers_pres _ _ _ _).1).trans (fillUnknown_pres _ _ _ _ _).1
  · exact ((fillMarkers_pres _ _ _ _).2.1).trans (fillUnknown_pres _ _ _ _ _).2.1
  · exact ((fillMarkers_pres _ _ _ _).2.2.1).trans
      (fillUnknown_pres _ _ _ _ _).2.2.1

theorem rowBeforeSkin_py (cfg : Config) (row : Row) (rs : RngState) (cv : ℚ) :
    (rowBeforeSkin cfg row rs cv).2.py = rs.py := by
  unfold rowBeforeSkin
  dsimp only
  rw [fillMarkers_py, fillUnknown_py, rowAfterConf_py]

theorem rowBeforeSkin_unknown (cfg : Config) (row : Row) (rs : RngState)
    (cv : ℚ)
    (h : cfg.overwrite = true ∨ row.unknown_uncertain.isBlank = true) :
    ∃ k, (rowBeforeSkin cfg row rs cv).1.unknown_uncertain =
      Cell.intC (if cv < cfg.lowconfThreshold ∨
        rs.py k < cfg.uncertainRate then 1 else 0) := by
  unfold rowBeforeSkin
  dsimp only
  refine ⟨(rowAfterConf cfg row rs).2.1.pyIdx, ?_⟩
  rw [(fillMarkers_pres _ _ _ _).2.2.2.1]
  have hv := fillUnknown_value cfg row (rowAfterConf cfg row rs).1 cv
    (rowAfterConf cfg row rs).2.1 h
  rw [rowAfterConf_py] at hv
  exact hv

theorem rowFinal_pres (cfg : Config) (env : ImgEnv) (row : Row) (ml : String)
    (f : Row × RngState) :
    (rowFinal cfg env row ml f).1.race_ml = f.1.race_ml ∧
    (rowFinal cfg env row ml f).1.ambiguous_mixed = f.1.ambiguous_mixed ∧
    (rowFinal cfg env row ml f).1.conf_race = f.1.conf_race ∧
    (rowFinal cfg env row ml f).1.unknown_uncertain = f.1.unknown_uncertain := by
  unfold rowFinal
  dsimp only
  refine ⟨?_, ?_, ?_, ?_⟩
  · exact ((fillNotes_pres _ _ _ _).1).trans
      (((fillConfGender_pres _ _ _ _).1).trans (fillConfSkin_pres _ _ _ _ _).1)
  · exact ((fillNotes_pres _ _ _ _).2.1).trans
      (((fillConfGender_pres _ _ _ _).2.1).trans
        (fillConfSkin_pres _ _ _ _ _).2.1)
  · exact ((fillNotes_pres _ _ _ _).2.2.1).trans
      (((fillConfGender_pres _ _ _ _).2.2.1).trans
        (fillConfSkin_pres _ _ _ _ _).2.2.1)
  · exact ((fillNotes_pres _ _ _ _).2.2.2.1).trans
      (((fillConfGender_pres _ _ _ _).2.2.2.1).trans
        (fillConfSkin_pres _ _ _ _ _).2.2.2.1)

theorem rowFinal_conf_skin (cfg : Config) (env : ImgEnv) (row : Row)
    (ml : String) (f : Row × RngState)
    (h : cfg.overwrite = true ∨ row.conf_skin.isBlank = true) :
    ∃ a b, ((a, b) = ((6 : ℚ)/10, (9 : ℚ)/10) ∨
        (a, b) = ((5 : ℚ)/10, (8 : ℚ)/10)) ∧
      (rowFinal cfg env row ml f).1.conf_skin =
        Cell.ratC (round3 (uniform a b (f.2.py f.2.pyIdx))) := by
  unfold rowFinal
  dsimp only
  rw [(fillNotes_pres _ _ _ _).2.2.2.2.1, (fillConfGender_pres _ _ _ _).2.2.2.2]
  exact fillConfSkin_value cfg env row f.1 f.2 h

theorem rowFinal_conf_gender (cfg : Config) (env : ImgEnv) (row : Row)
    (ml : String) (f : Row × RngState)
    (h : cfg.overwrite = true ∨ row.conf_gender.isBlank = true) :
    ∃ a b k, ((a, b) = ((8 : ℚ)/10, (1 : ℚ)) ∨
        (a, b) = ((4 : ℚ)/10, (7 : ℚ)/10)) ∧
      (rowFinal cfg env row ml f).1.conf_gender =
        Cell.ratC (round3 (uniform a b (f.2.py k))) := by
  unfold rowFinal
  dsimp only
  rw [(fillNotes_pres _ _ _ _).2.2.2.2.2]
  obtain ⟨a, b, hm, hv⟩ := fillConfGender_value cfg row
    (fillConfSkin cfg env row f.1 f.2).1 (fillConfSkin cfg env row f.1 f.2).2 h
  rw [fillConfSkin_py] at hv
  exact ⟨a, b, (fillConfSkin cfg env row f.1 f.2).2.pyIdx, hm, hv⟩

theorem fillRaceMl_ml_eq (cfg : Config) (row : Row) (rs : RngState)
    (h : cfg.overwrite = true ∨ row.race_ml.isBlank = true) :
    (fillRaceMl cfg row row rs).1 =
      (choose_multilabel rs row.race_cat.pyStr cfg.ambiguousRate).1 := by
  have hg : (cfg.overwrite || row.race_ml.isBlank) = true := by
    rcases h with h | h <;> simp [h]
  unfold fillRaceMl
  rw [if_pos hg]

/-! ### Arithmetic lemmas for the confidence bounds -/

theorem uniform_mem01 (a b r : ℚ) (ha0 : 0 ≤ a) (ha1 : a ≤ 1) (hb0 : 0 ≤ b)
    (hb1 : b ≤ 1) (hr0 : 0 ≤ r) (hr1 : r < 1) :
    0 ≤ uniform a b r ∧ uniform a b r ≤ 1 := by
  unfold uniform
  constructor <;> nlinarith

theorem round3_bounds (q : ℚ) (h0 : 0 ≤ q) (h1 : q ≤ 1) :
    0 ≤ round3 q ∧ round3 q ≤ 1 := by
  unfold round3
  constructor
  · apply div_nonneg _ (by norm_num)
    have hz : (0 : ℤ) ≤ Int.floor (q * 1000 + 1/2) :=
      Int.le_floor.mpr (by push_cast; linarith)
    exact_mod_cast hz
  · rw [div_le_one (by norm_num)]
    have h2 : (Int.floor (q * 1000 + 1/2) : ℚ) ≤ q * 1000 + 1/2 :=
      Int.floor_le _
    have h3 : Int.floor (q * 1000 + 1/2) ≤ 1000 := by
      have h4 : (Int.floor (q * 1000 + 1/2) : ℚ) < 1001 := by linarith
      have h5 : Int.floor (q * 1000 + 1/2) < 1001 := by exact_mod_cast h4
      omega
    exact_mod_cast h3

theorem round3_thousandths (q : ℚ) : (round3 q * 1000).den = 1 := by
  unfold round3
  rw [div_mul_cancel₀]
  · exact Rat.den_intCast _
  · norm_num

/-! ### NumPy choice and the skin-tone tables -/

theorem weightedPick_mem (r : ℚ) (l : List Int) (ws : List ℚ) (h : l ≠ []) :
    weightedPick r l ws ∈ l := by
  induction l generalizing r ws with
  | nil => exact absurd rfl h
  | cons c tl ih =>
    cases tl with
    | nil => simp [weightedPick]
    | cons c2 cs =>
      cases ws with
      | nil => simp [weightedPick]
      | cons w wtl =>
        by_cases hr : r < w
        · simp [weightedPick, hr]
        · have hm := ih (r - w) wtl (by simp)
          simp only [weightedPick, hr, if_false]
          exact List.mem_cons_of_mem c hm

theorem npChoice_ok_of_length (rs : RngState) (choices : List Int)
    (ws : List ℚ) (hlen : choices.length = ws.length) (hne : choices ≠ []) :
    npChoice rs choices ws =
      .ok (weightedPick (rs.npr rs.npIdx) choices
          (ws.map (fun w => w / ws.sum)), (rs.npRand).2) := by
  unfold npChoice
  rw [if_neg (fun hc => hc hlen), if_neg (by simpa using hne)]
  rfl

theorem skinChoices_length (bins : Nat) : (skinChoices bins).length = bins := by
  unfold skinChoices
  rw [List.length_map, List.length_range]

theorem skinChoices_mem (bins : Nat) (b : Int) (h : b ∈ skinChoices bins) :
    1 ≤ b ∧ b ≤ (bins : Int) := by
  unfold skinChoices at h
  simp only [List.mem_map, List.mem_range] at h
  obtain ⟨k, hk, rfl⟩ := h
  simp only [Int.ofNat_eq_natCast]
  omega

theorem skinWeights_length (base : String) (bins : Nat)
    (h : ¬(base = "Black" ∨ base = "White") ∨ bins = 7) :
    (skinWeights base bins).length = bins := by
  unfold skinWeights
  rcases h with h | h
  · push_neg at h
    rw [if_neg h.1, if_neg h.2]
    simp
  · subst h
    split_ifs <;> simp

end AutofillV3

namespace AutofillV3

/-- With ambiguous-rate 1, a `MiddleEastern` row always enters the
multi-label branch, and its two candidate pairs give exactly two possible
outputs. -/
theorem choose_multilabel_ME (rs : RngState) (hv : validStream rs.py) :
    (choose_multilabel rs ("MiddleEastern") 1).1 = "MiddleEastern|SouthAsian" ∨
    (choose_multilabel rs ("MiddleEastern") 1).1 = "MiddleEastern|Latino" := by
  unfold choose_multilabel
  rw [if_pos (by decide : ("MiddleEastern" : String) ∈ FF_CLASSES)]
  dsimp only
  have hc : (ADJACENT_PAIRS.filter
      (fun p => p.1 = ("MiddleEastern" : String) ∨ p.2 = "MiddleEastern")).map
        sortPair =
      [("MiddleEastern", "SouthAsian"), ("Latino", "MiddleEastern")] := by
    decide
  rw [hc]
  rw [if_neg (by simp)]
  dsimp only [RngState.rand, RngState.randIndex]
  rw [if_pos (hv rs.pyIdx).2]
  rcases hmin : min (Int.toNat (Int.floor (rs.py (rs.pyIdx + 1) *
      (([("MiddleEastern", "SouthAsian"),
         ("Latino", "MiddleEastern")] : List (String × String)).length : ℚ))))
      (([("MiddleEastern", "SouthAsian"),
         ("Latino", "MiddleEastern")] : List (String × String)).length - 1)
      with _ | i
  · left
    dsimp only
    decide
  · have h1 : i + 1 ≤ ([("MiddleEastern", "SouthAsian"),
        ("Latino", "MiddleEastern")] : List (String × String)).length - 1 := by
      rw [← hmin]
      exact Nat.min_le_right _ _
    simp only [List.length_cons, List.length_nil] at h1
    have h2 : i = 0 := by omega
    subst h2
    right
    dsimp only
    decide

theorem rowAfterConf_id (cfg : Config) (row : Row) (rs : RngState)
    (hov : cfg.overwrite = false) (h1 : row.race_ml.isBlank = false)
    (h4 : row.ambiguous_mixed.isBlank = false)
    (h5 : row.prefer_not_to_label.isBlank = false)
    (h7 : row.conf_race.isBlank = false) :
    rowAfterConf cfg row rs = (row, rs, row.race_ml.pyStr) := by
  unfold rowAfterConf fillRaceMl fillAmbiguous fillPrefer fillConfRace
  simp [hov, h1, h4, h5, h7]

theorem rowBeforeSkin_id (cfg : Config) (row : Row) (rs : RngState) (cv : ℚ)
    (hov : cfg.overwrite = false) (h1 : row.race_ml.isBlank = false)
    (h3 : row.cultural_markers.isBlank = false)
    (h4 : row.ambiguous_mixed.isBlank = false)
    (h5 : row.prefer_not_to_label.isBlank = false)
    (h6 : row.unknown_uncertain.isBlank = false)
    (h7 : row.conf_race.isBlank = false) :
    rowBeforeSkin cfg row rs cv = (row, rs) := by
  unfold rowBeforeSkin
  rw [rowAfterConf_id cfg row rs hov h1 h4 h5 h7]
  unfold fillUnknown fillMarkers
  simp [hov, h3, h6]

theorem fillSkin_id (cfg : Config) (env : ImgEnv) (row : Row) (rs : RngState)
    (hov : cfg.overwrite = false)
    (h2 : row.skin_tone_bin.isBlank = false) :
    fillSkin cfg env row row rs = .ok (row, rs) := by
  unfold fillSkin
  simp [hov, h2]

theorem rowFinal_id (cfg : Config) (env : ImgEnv) (row : Row) (ml : String)
    (rs : RngState) (hov : cfg.overwrite = false)
    (h8 : row.conf_gender.isBlank = false)
    (h9 : row.conf_skin.isBlank = false)
    (h10 : row.annotation_notes.isBlank = false) :
    rowFinal cfg env row ml (row, rs) = (row, rs) := by
  unfold rowFinal fillConfSkin fillConfGender fillNotes
  simp [hov, h8, h9, h10]

/-- With every guard failing (fill-blanks mode and a fully filled row,
numeric `conf_race`), one loop iteration is the identity and consumes no
draws. -/
theorem processRow_id (cfg : Config) (env : ImgEnv) (row : Row)
    (rs : RngState) (hov : cfg.overwrite = false)
    (hd : row.derivedFilled)
    (hc : (row.conf_race.toFloat).isSome = true) :
    processRow cfg env row rs = .ok (row, rs) := by
  obtain ⟨h1, h2, h3, h4, h5, h6, h7, h8, h9, h10⟩ := hd
  obtain ⟨v, hv⟩ := Option.isSome_iff_exists.mp hc
  have hcv : confValOf row.conf_race = .ok v := by
    unfold confValOf
    rw [if_neg (by simp [h7]), hv]
  unfold processRow
  rw [rowAfterConf_id cfg row rs hov h1 h4 h5 h7]
  dsimp only
  rw [hcv]
  dsimp only
  rw [rowBeforeSkin_id cfg row rs v hov h1 h3 h4 h5 h6 h7]
  dsimp only
  rw [fillSkin_id cfg env row rs hov h2]
  dsimp only
  rw [rowFinal_id cfg env row row.race_ml.pyStr rs hov h8 h9 h10]

end AutofillV3

namespace AutofillV3

theorem processTable_id (cfg : Config) (env : ImgEnv) (rows : List Row)
    (rs : RngState) (hov : cfg.overwrite = false)
    (hfill : ∀ r ∈ rows, r.derivedFilled)
    (hconf : ∀ r ∈ rows, (r.conf_race.toFloat).isSome = true) :
    processTable cfg env rows rs = .ok (rows, rs) := by
  revert hfill hconf
  induction rows generalizing rs with
  | nil => intro _ _; rfl
  | cons r rest ih =>
    intro hfill hconf
    unfold processTable
    rw [processRow_id cfg env r rs hov (hfill r (by simp))
      (hconf r (by simp))]
    dsimp only
    rw [ih rs (fun x hx => hfill x (by simp [hx]))
      (fun x hx => hconf x (by simp [hx]))]

/-! ### Claim theorems -/

/-- C1: the claim says `skin_tone_bin ∈ [1, N]` for any configured `N` and
every race, in particular `"Black"`.  The code instead crashes: with
`--skin-bins 5` and a blank `Black` row under the random strategy,
`np.random.choice` receives the hard-coded 7-entry weight table against 5
choices and raises `ValueError`, aborting the whole run before any bin is
stored. -/
theorem c1_skin_bins_crash :
    processTable cfgBins5 envNone [rowBlack] rs0 = .error npSizeErr := rfl

/-- C2: the claim says a run with an existing readable input exits with
success after a summary.  In the source, `def main` is defined twice; the
executed second definition calls `generate_v3_metadata`, which calls the
undefined name `main_logic`, so every invocation — the input present or
not — raises and exits with failure status. -/
theorem c2_entry_always_fails :
    mainEntry true = ExitCode.failure ∧
    mainEntry false = ExitCode.failure ∧
    resolvesName ("main_logic") = false := by
  decide

/-- C3: determinism.  The engine output (and hence the serialized CSV
bytes) is a function of the input table, the configuration, and the two
generator streams alone; seeding with the same seed yields pointwise-equal
streams, and pointwise-equal streams give byte-identical output. -/
theorem c3_determinism (cfg : Config) (env : ImgEnv) (rows : List Row)
    (p1 p2 n1 n2 : Nat → ℚ)
    (hp : ∀ k, p1 k = p2 k) (hn : ∀ k, n1 k = n2 k) :
    (processTable cfg env rows ⟨p1, 0, n1, 0⟩).map
        (fun x => serializeTable x.1) =
      (processTable cfg env rows ⟨p2, 0, n2, 0⟩).map
        (fun x => serializeTable x.1) := by
  have h1 : p1 = p2 := funext hp
  have h2 : n1 = n2 := funext hn
  rw [h1, h2]

/-- C3 witness: two runs over a one-row table with the same concrete
streams produce the same serialized output. -/
theorem c3_determinism_witness :
    (processTable defaultConfig envNone [rowEA] ⟨constHalf, 0, constHalf, 0⟩).map
        (fun x => serializeTable x.1) =
      (processTable defaultConfig envNone [rowEA]
          ⟨constHalf, 0, constHalf, 0⟩).map
        (fun x => serializeTable x.1) :=
  c3_determinism defaultConfig envNone [rowEA] constHalf constHalf constHalf
    constHalf (fun _ => rfl) (fun _ => rfl)

/-- C4 counterexample: a table whose derived columns are all non-blank,
run in fill-blanks mode, on which the engine nevertheless aborts (so the
output is not byte-identical to the input): the non-numeric pre-filled
`conf_race` cell `"x"` makes `float(df.at[i,"conf_race"])` raise. -/
theorem c4_counterexample :
    (∀ r ∈ [rowBadConf], r.derivedFilled) ∧
    defaultConfig.overwrite = false ∧
    processTable defaultConfig envNone [rowBadConf] rs0 = .error floatErr := by
  refine ⟨?_, rfl, rfl⟩
  intro r hr
  simp only [List.mem_singleton] at hr
  subst hr
  decide

/-- C4 (amended): in fill-blanks mode, on a table whose derived columns
are all non-blank and whose `conf_race` cells parse as floats, the run is
a no-op: the output table equals the input table and the serialized bytes
are identical. -/
theorem c4_idempotent (cfg : Config) (env : ImgEnv) (rows : List Row)
    (rs : RngState) (hov : cfg.overwrite = false)
    (hfill : ∀ r ∈ rows, r.derivedFilled)
    (hconf : ∀ r ∈ rows, (r.conf_race.toFloat).isSome = true) :
    processTable cfg env rows rs = .ok (rows, rs) ∧
    (processTable cfg env rows rs).map (fun x => serializeTable x.1) =
      .ok (serializeTable rows) := by
  have hmain := processTable_id cfg env rows rs hov hfill hconf
  exact ⟨hmain, by rw [hmain]; rfl⟩

/-- C4 witness: the amended idempotence theorem applied to a concrete
fully filled one-row table. -/
theorem c4_idempotent_witness :
    processTable defaultConfig envNone [rowFilled] rs0 =
      .ok ([rowFilled], rs0) ∧
    (processTable defaultConfig envNone [rowFilled] rs0).map
        (fun x => serializeTable x.1) = .ok (serializeTable [rowFilled]) :=
  c4_idempotent defaultConfig envNone [rowFilled] rs0 rfl
    (by intro r hr; simp only [List.mem_singleton] at hr; subst hr; decide)
    (by intro r hr; simp only [List.mem_singleton] at hr; subst hr; decide)

end AutofillV3

namespace AutofillV3

theorem constHalf_valid : validStream constHalf := by
  intro k
  constructor <;> norm_num [constHalf]

theorem constZero_valid : validStream constZero := by
  intro k
  constructor <;> norm_num [constZero]

/-- C5 counterexample: in fill-blanks mode, a row whose `race_ml` is the
multi-label `"MiddleEastern|SouthAsian"` but whose `ambiguous_mixed` was
pre-filled `"0"` keeps the inconsistent flag: the output violates
`ambiguous_mixed == 1 iff "|" in race_ml`. -/
theorem c5_counterexample :
    (processTable defaultConfig envNone [rowC5C] rs0).map
        (fun p => p.1.map (fun r =>
          (r.ambiguous_mixed.eqInt1, pyContains r.race_ml.pyStr '|'))) =
      .ok [(false, true)] ∧
    ¬ ((false = true) ↔ (true = true)) := by
  exact ⟨rfl, by simp⟩

/-- C5 (amended): for every row whose `ambiguous_mixed` the engine fills
(blank cell, or overwrite mode), the output flag equals 1 exactly when the
output `race_ml` contains the separator `"|"`; pre-filled flags pass
through unchanged even when inconsistent. -/
theorem c5_ambiguous_consistency (cfg : Config) (env : ImgEnv) (row : Row)
    (rs : RngState) (pr : Row × RngState)
    (hfill : cfg.overwrite = true ∨ row.ambiguous_mixed.isBlank = true)
    (hok : processRow cfg env row rs = .ok pr) :
    (pr.1.ambiguous_mixed.eqInt1 = true ↔
      pyContains pr.1.race_ml.pyStr '|' = true) := by
  obtain ⟨cv, f, hcv, hsk, hpr⟩ := processRow_ok_elim cfg env row rs pr hok
  subst hpr
  have hml : (rowFinal cfg env row (rowAfterConf cfg row rs).2.2 f).1.race_ml
      = (fillRaceMl cfg row row rs).2.1.race_ml := by
    rw [(rowFinal_pres _ _ _ _ _).1, (fillSkin_pres _ _ _ _ _ _ hsk).1,
      (rowBeforeSkin_pres _ _ _ _).1, rowAfterConf_race_ml]
  have hamb : (rowFinal cfg env row
      (rowAfterConf cfg row rs).2.2 f).1.ambiguous_mixed
      = Cell.intC (if pyContains (fillRaceMl cfg row row rs).1 '|'
          then 1 else 0) := by
    rw [(rowFinal_pres _ _ _ _ _).2.1, (fillSkin_pres _ _ _ _ _ _ hsk).2.1,
      (rowBeforeSkin_pres _ _ _ _).2.1, rowAfterConf_ambiguous cfg row rs hfill]
  rw [hml, hamb, fillRaceMl_race_ml_pyStr]
  by_cases hc : pyContains (fillRaceMl cfg row row rs).1 '|'
  · simp [hc, Cell.eqInt1]
  · simp [hc, Cell.eqInt1]

/-- C5 witness: the amended theorem applied to a concrete row with stored
multi-label `race_ml` and blank `ambiguous_mixed`: the freshly computed
flag is 1 and agrees with the separator test. -/
theorem c5_witness :
    (rowC5WOut.ambiguous_mixed.eqInt1 = true ↔
      pyContains rowC5WOut.race_ml.pyStr '|' = true) :=
  c5_ambiguous_consistency defaultConfig envNone rowC5W rs0 (rowC5WOut, rs0)
    (Or.inr (by decide)) rfl

/-- C6 counterexample: the claim quantifies over every configuration, but
with `--hi-conf-range "2,3"` an engine-filled `conf_race` is `2.5`,
outside `[0, 1]`. -/
theorem c6_counterexample :
    (processRow cfgHi23 envNone rowEA rs0).map (fun p => p.1.conf_race) =
      .ok (Cell.ratC (5/2)) ∧ ¬ ((5 : ℚ)/2 ≤ 1) :=
  ⟨rfl, by norm_num⟩

/-- C6 (amended): when the three configured confidence bands lie within
`[0, 1]` (as the defaults do), every confidence field the engine fills is
a rational in `[0, 1]` equal to a multiple of `0.001` (rounding to three
decimals); pre-filled confidence cells pass through unchanged. -/
theorem c6_conf_ranges (cfg : Config) (env : ImgEnv) (row : Row)
    (rs : RngState) (pr : Row × RngState)
    (hranges : rangesIn01 cfg)
    (hv : validStream rs.py)
    (hr : cfg.overwrite = true ∨ row.conf_race.isBlank = true)
    (hs : cfg.overwrite = true ∨ row.conf_skin.isBlank = true)
    (hg : cfg.overwrite = true ∨ row.conf_gender.isBlank = true)
    (hok : processRow cfg env row rs = .ok pr) :
    (∃ v, pr.1.conf_race = Cell.ratC v ∧ 0 ≤ v ∧ v ≤ 1 ∧
      (v * 1000).den = 1) ∧
    (∃ v, pr.1.conf_skin = Cell.ratC v ∧ 0 ≤ v ∧ v ≤ 1 ∧
      (v * 1000).den = 1) ∧
    (∃ v, pr.1.conf_gender = Cell.ratC v ∧ 0 ≤ v ∧ v ≤ 1 ∧
      (v * 1000).den = 1) := by
  obtain ⟨cv, f, hcv, hsk, hpr⟩ := processRow_ok_elim cfg env row rs pr hok
  subst hpr
  obtain ⟨lo1a, lo1b, lo2a, lo2b, mi1a, mi1b, mi2a, mi2b,
    hi1a, hi1b, hi2a, hi2b⟩ := hranges
  have hfpy : f.2.py = rs.py := by
    rw [(fillSkin_pres _ _ _ _ _ _ hsk).2.2.2.2.2.2, rowBeforeSkin_py]
  refine ⟨?_, ?_, ?_⟩
  · obtain ⟨a, b, k, hm, hval⟩ := rowAfterConf_conf_race cfg row rs hr
    have hcell : (rowFinal cfg env row
        (rowAfterConf cfg row rs).2.2 f).1.conf_race
        = (rowAfterConf cfg row rs).1.conf_race := by
      rw [(rowFinal_pres _ _ _ _ _).2.2.1,
        (fillSkin_pres _ _ _ _ _ _ hsk).2.2.1,
        (rowBeforeSkin_pres _ _ _ _).2.2]
    rw [hcell, hval]
    have hab : 0 ≤ a ∧ a ≤ 1 ∧ 0 ≤ b ∧ b ≤ 1 := by
      rcases hm with hm | hm | hm <;>
        obtain ⟨ha, hb⟩ := Prod.ext_iff.mp hm <;>
        subst ha <;> subst hb <;> exact ⟨by assumption, by assumption,
          by assumption, by assumption⟩
    have hu := uniform_mem01 a b (rs.py k) hab.1 hab.2.1 hab.2.2.1 hab.2.2.2
      (hv k).1 (hv k).2
    have hr3 := round3_bounds _ hu.1 hu.2
    exact ⟨round3 (uniform a b (rs.py k)), rfl, hr3.1, hr3.2,
      round3_thousandths _⟩
  · obtain ⟨a, b, hm, hval⟩ := rowFinal_conf_skin cfg env row
      (rowAfterConf cfg row rs).2.2 f hs
    rw [hval, hfpy]
    have hab : 0 ≤ a ∧ a ≤ 1 ∧ 0 ≤ b ∧ b ≤ 1 := by
      rcases hm with hm | hm <;>
        obtain ⟨ha, hb⟩ := Prod.ext_iff.mp hm <;>
        subst ha <;> subst hb <;> constructor <;> norm_num
    have hu := uniform_mem01 a b (rs.py f.2.pyIdx) hab.1 hab.2.1 hab.2.2.1
      hab.2.2.2 (hv f.2.pyIdx).1 (hv f.2.pyIdx).2
    have hr3 := round3_bounds _ hu.1 hu.2
    exact ⟨round3 (uniform a b (rs.py f.2.pyIdx)), rfl, hr3.1, hr3.2,
      round3_thousandths _⟩
  · obtain ⟨a, b, k, hm, hval⟩ := rowFinal_conf_gender cfg env row
      (rowAfterConf cfg row rs).2.2 f hg
    rw [hval, hfpy]
    have hab : 0 ≤ a ∧ a ≤ 1 ∧ 0 ≤ b ∧ b ≤ 1 := by
      rcases hm with hm | hm <;>
        obtain ⟨ha, hb⟩ := Prod.ext_iff.mp hm <;>
        subst ha <;> subst hb <;> constructor <;> norm_num
    have hu := uniform_mem01 a b (rs.py k) hab.1 hab.2.1 hab.2.2.1
      hab.2.2.2 (hv k).1 (hv k).2
    have hr3 := round3_bounds _ hu.1 hu.2
    exact ⟨round3 (uniform a b (rs.py k)), rfl, hr3.1, hr3.2,
      round3_thousandths _⟩

/-- C6 witness: the amended theorem at the default configuration on a
blank `EastAsian` row with all draws `1/2`. -/
theorem c6_witness :
    (∃ v, rowEAOut.conf_race = Cell.ratC v ∧ 0 ≤ v ∧ v ≤ 1 ∧
      (v * 1000).den = 1) ∧
    (∃ v, rowEAOut.conf_skin = Cell.ratC v ∧ 0 ≤ v ∧ v ≤ 1 ∧
      (v * 1000).den = 1) ∧
    (∃ v, rowEAOut.conf_gender = Cell.ratC v ∧ 0 ≤ v ∧ v ≤ 1 ∧
      (v * 1000).den = 1) :=
  c6_conf_ranges defaultConfig envNone rowEA rs0
    (rowEAOut, ⟨constHalf, 8, constHalf, 1⟩) (by decide) constHalf_valid
    (Or.inr (by decide)) (Or.inr (by decide)) (Or.inr (by decide)) rfl

/-- C7 counterexample: with ambiguous-rate 1 and a blank `MiddleEastern`
row, a draw sequence selecting the second candidate pair emits
`"MiddleEastern|Latino"`, not the claimed unique `"MiddleEastern|SouthAsian"`
(`ADJACENT_PAIRS` also contains `("Latino", "MiddleEastern")`). -/
theorem c7_counterexample :
    (processRow cfgAmb1 envNone rowME rs0).map (fun p => p.1.race_ml) =
      .ok (Cell.strC ("MiddleEastern|Latino")) ∧
    Cell.strC ("MiddleEastern|Latino") ≠
      Cell.strC ("MiddleEastern|SouthAsian") :=
  ⟨rfl, by decide⟩

/-- C7 (amended): with ambiguous-rate 1, an engine-filled `race_ml` of a
`MiddleEastern` row is one of its two configured neighbours:
`"MiddleEastern|SouthAsian"` or `"MiddleEastern|Latino"`. -/
theorem c7_middle_eastern_multilabel (cfg : Config) (env : ImgEnv)
    (row : Row) (rs : RngState) (pr : Row × RngState)
    (hrace : row.race_cat = Cell.strC ("MiddleEastern"))
    (hrate : cfg.ambiguousRate = 1)
    (hfill : cfg.overwrite = true ∨ row.race_ml.isBlank = true)
    (hv : validStream rs.py)
    (hok : processRow cfg env row rs = .ok pr) :
    pr.1.race_ml = Cell.strC ("MiddleEastern|SouthAsian") ∨
    pr.1.race_ml = Cell.strC ("MiddleEastern|Latino") := by
  obtain ⟨cv, f, hcv, hsk, hpr⟩ := processRow_ok_elim cfg env row rs pr hok
  subst hpr
  have hml : (rowFinal cfg env row (rowAfterConf cfg row rs).2.2 f).1.race_ml
      = (fillRaceMl cfg row row rs).2.1.race_ml := by
    rw [(rowFinal_pres _ _ _ _ _).1, (fillSkin_pres _ _ _ _ _ _ hsk).1,
      (rowBeforeSkin_pres _ _ _ _).1, rowAfterConf_race_ml]
  have hg : (cfg.overwrite || row.race_ml.isBlank) = true := by
    rcases hfill with h | h <;> simp [h]
  have hcell : (fillRaceMl cfg row row rs).2.1.race_ml =
      Cell.strC ((choose_multilabel rs row.race_cat.pyStr
        cfg.ambiguousRate).1) := by
    unfold fillRaceMl
    rw [if_pos hg]
  rw [hml, hcell, hrace, hrate]
  have hps : (Cell.strC ("MiddleEastern")).pyStr = "MiddleEastern" := rfl
  rw [hps]
  rcases choose_multilabel_ME rs hv with h | h
  · left
    rw [h]
  · right
    rw [h]

/-- C7 witness: the amended theorem at ambiguous-rate 1 on a blank
`MiddleEastern` row with all draws `0` (which picks the first pair). -/
theorem c7_witness :
    (rowMEOut, (⟨constZero, 8, constZero, 1⟩ : RngState)).1.race_ml =
      Cell.strC ("MiddleEastern|SouthAsian") ∨
    (rowMEOut, (⟨constZero, 8, constZero, 1⟩ : RngState)).1.race_ml =
      Cell.strC ("MiddleEastern|Latino") :=
  c7_middle_eastern_multilabel cfgAmb1 envNone rowME rsZ
    (rowMEOut, ⟨constZero, 8, constZero, 1⟩) rfl rfl (Or.inr (by decide))
    constZero_valid rfl

/-- C9: an engine-filled `unknown_uncertain` is 1 when the row's race
confidence (`conf_val`) is below the configured threshold — with no draw
consumed — and in general equals
`1 if conf_val < threshold or draw < uncertain_rate else 0` for the next
Python draw. -/
theorem c9_unknown_uncertain (cfg : Config) (env : ImgEnv) (row : Row)
    (rs : RngState) (pr : Row × RngState)
    (hfill : cfg.overwrite = true ∨ row.unknown_uncertain.isBlank = true)
    (hok : processRow cfg env row rs = .ok pr) :
    (confValRow pr.1 < cfg.lowconfThreshold →
      pr.1.unknown_uncertain = Cell.intC 1) ∧
    (∃ k, pr.1.unknown_uncertain =
      Cell.intC (if confValRow pr.1 < cfg.lowconfThreshold ∨
        rs.py k < cfg.uncertainRate then 1 else 0)) := by
  obtain ⟨cv, f, hcv, hsk, hpr⟩ := processRow_ok_elim cfg env row rs pr hok
  subst hpr
  have hconf : (rowFinal cfg env row
      (rowAfterConf cfg row rs).2.2 f).1.conf_race
      = (rowAfterConf cfg row rs).1.conf_race := by
    rw [(rowFinal_pres _ _ _ _ _).2.2.1,
      (fillSkin_pres _ _ _ _ _ _ hsk).2.2.1,
      (rowBeforeSkin_pres _ _ _ _).2.2]
  have hcvr : confValRow (rowFinal cfg env row
      (rowAfterConf cfg row rs).2.2 f).1 = cv := by
    unfold confValRow
    rw [hconf]
    exact confValOf_ok _ _ hcv
  obtain ⟨k, hunk⟩ := rowBeforeSkin_unknown cfg row rs cv hfill
  have hu2 : (rowFinal cfg env row
      (rowAfterConf cfg row rs).2.2 f).1.unknown_uncertain
      = (rowBeforeSkin cfg row rs cv).1.unknown_uncertain := by
    rw [(rowFinal_pres _ _ _ _ _).2.2.2,
      (fillSkin_pres _ _ _ _ _ _ hsk).2.2.2.1]
  constructor
  · intro hlt
    rw [hu2, hunk, if_pos (Or.inl (hcvr ▸ hlt))]
  · exact ⟨k, by rw [hcvr, hu2, hunk]⟩

/-- C9 witness: a row with `conf_race "0.2"` (below the default threshold
0.6) and a blank `unknown_uncertain` gets the flag 1. -/
theorem c9_witness :
    (confValRow rowC9WOut < defaultConfig.lowconfThreshold →
      rowC9WOut.unknown_uncertain = Cell.intC 1) ∧
    (∃ k, rowC9WOut.unknown_uncertain =
      Cell.intC (if confValRow rowC9WOut < defaultConfig.lowconfThreshold ∨
        rs0.py k < defaultConfig.uncertainRate then 1 else 0)) :=
  c9_unknown_uncertain defaultConfig envNone rowC9W rs0 (rowC9WOut, rs0)
    (Or.inr (by decide)) rfl

end AutofillV3

namespace AutofillV3

/-- C8: the claim (and the code's own comment) says `conf_skin` is drawn
from `[0.5, 0.8]` when the brightness strategy fell back to the random
strategy.  The code only tests `method == brightness and PIL_OK and bin
cell not in ["", "Unknown"]` — the just-stored fallback bin passes that
test — so a row whose image does not decode still gets the `[0.6, 0.9]`
band: here the bin comes from the random fallback (the estimator returned
`None`) yet `conf_skin = 0.87 > 0.8`. -/
theorem c8_conf_skin_fallback_range :
    brightness_to_bin envPilFail (resolvePath envPilFail ("img.jpg")) 7 =
      none ∧
    (processRow cfgBright envPilFail rowPath rsC8).map
        (fun p => (p.1.skin_tone_bin, p.1.conf_skin)) =
      .ok (Cell.strC ("4"), Cell.ratC (87/100)) ∧
    ¬ ((87 : ℚ)/100 ≤ 8/10) :=
  ⟨rfl, rfl, by norm_num⟩

/-- C10 counterexample: the silent fallback is not always error-free:
under the brightness method with `--skin-bins 5`, a `Black` row whose
image does not decode falls back to the random strategy, whose hard-coded
7-entry weight table then makes `np.random.choice` raise, aborting the
run. -/
theorem c10_counterexample :
    processRow cfgB5 envPilFail rowBlackP rs0 = .error npSizeErr ∧
    brightness_to_bin envPilFail (resolvePath envPilFail ("x.jpg")) 5 =
      none :=
  ⟨rfl, rfl⟩

/-- C10 (amended): the brightness estimator returns no bin exactly when
PIL is unavailable, the image fails to decode, or a decoded dimension is
below 10; and when it returns no bin the skin block silently assigns a bin
in `[1, N]` from the race-weighted random strategy with no error — provided
the weight table matches the configured bin count (race not in
{Black, White}, or N = 7). -/
theorem c10_brightness_fallback (cfg : Config) (env : ImgEnv) (row cur : Row)
    (rs : RngState)
    (_hm : cfg.skinToneMethod = SkinMethod.brightness)
    (hfill : cfg.overwrite = true ∨ row.skin_tone_bin.isBlank = true)
    (hnone : brightness_to_bin env (resolvePath env row.rel_path.pyStr)
      cfg.skinBins = none)
    (hw : ¬(row.race_cat.pyStr = "Black" ∨ row.race_cat.pyStr = "White") ∨
      cfg.skinBins = 7)
    (hbins : 1 ≤ cfg.skinBins) :
    (∀ (e2 : ImgEnv) (p : String) (bins : Nat),
      brightness_to_bin e2 p bins = none ↔
      (e2.pilOk = false ∨ e2.openImg p = none ∨
       ∃ im, e2.openImg p = some im ∧ (im.w < 10 ∨ im.h < 10))) ∧
    ∃ b rs2, fillSkin cfg env row cur rs =
        .ok ({ cur with skin_tone_bin := Cell.strC (toString b) }, rs2) ∧
      1 ≤ b ∧ b ≤ (cfg.skinBins : Int) := by
  constructor
  · intro e2 p bins
    unfold brightness_to_bin
    split_ifs with h1
    · simp [h1]
    · cases ho : e2.openImg p with
      | none => simp [h1]
      | some im =>
        dsimp only
        split_ifs with hsz
        · simp only [h1, false_or]
          constructor
          · intro _
            exact Or.inr ⟨im, rfl, hsz⟩
          · intro _
            trivial
        · simp only [h1, false_or]
          constructor
          · intro hcontra
            exact absurd hcontra (by simp)
          · rintro (hcontra | ⟨im2, him2, hsz2⟩)
            · exact absurd hcontra (by simp)
            · rw [Option.some.injEq] at him2
              subst him2
              exact absurd hsz2 hsz
  · have hg : (cfg.overwrite || row.skin_tone_bin.isBlank) = true := by
      rcases hfill with h | h <;> simp [h]
    unfold fillSkin
    rw [if_pos hg]
    dsimp only
    have hbv : (if cfg.skinToneMethod = SkinMethod.brightness ∧
        env.pilOk = true ∧
        (stripChars row.rel_path.pyStr.data).isEmpty = false then
        brightness_to_bin env (resolvePath env row.rel_path.pyStr)
          cfg.skinBins
      else none) = none := by
      split_ifs with hcnd
      · exact hnone
      · rfl
    rw [hbv]
    dsimp only
    have hlen : (skinChoices cfg.skinBins).length =
        (skinWeights row.race_cat.pyStr cfg.skinBins).length := by
      rw [skinChoices_length, skinWeights_length _ _ hw]
    have hne : skinChoices cfg.skinBins ≠ [] := by
      intro hnil
      have hl := skinChoices_length cfg.skinBins
      rw [hnil] at hl
      simp at hl
      omega
    rw [npChoice_ok_of_length rs _ _ hlen hne]
    dsimp only
    refine ⟨_, _, rfl, ?_, ?_⟩
    · exact (skinChoices_mem _ _ (weightedPick_mem _ _ _ hne)).1
    · exact (skinChoices_mem _ _ (weightedPick_mem _ _ _ hne)).2

/-- C10 witness: the amended theorem on a blank `EastAsian` row with an
undecodable image path under the brightness method (default 7 bins). -/
theorem c10_witness :
    (∀ (e2 : ImgEnv) (p : String) (bins : Nat),
      brightness_to_bin e2 p bins = none ↔
      (e2.pilOk = false ∨ e2.openImg p = none ∨
       ∃ im, e2.openImg p = some im ∧ (im.w < 10 ∨ im.h < 10))) ∧
    ∃ b rs2, fillSkin cfgBright envPilFail rowPath rowPath rs0 =
        .ok ({ rowPath with skin_tone_bin := Cell.strC (toString b) }, rs2) ∧
      1 ≤ b ∧ b ≤ (cfgBright.skinBins : Int) :=
  c10_brightness_fallback cfgBright envPilFail rowPath rowPath rs0 rfl
    (Or.inr (by decide)) rfl (Or.inl (by decide)) (by decide)

end AutofillV3
